import Mathlib

/-!
Verification of the TimeSlider controller core
(`src/Plugin/CppApi/source/TimeSliderController.cpp`).

The C++ core is embedded shallowly:

* `QDateTime` becomes `Option ℤ` (milliseconds since the epoch; `none` is an
  invalid datetime, which Qt orders before every valid one);
* `TimeExtent` becomes a pair of such datetimes; the default-constructed
  (empty) extent has both components invalid;
* `TimeValue` becomes `Option` of a (duration, unit) pair, `none` standing for
  the empty (unset) interval, whose duration reads as 0;
* C++ `double` values (durations, `m_intervalMS`) become exact rationals `ℚ`;
  the implicit C++ conversions from `double` to integer types truncate toward
  zero, embedded as `qtrunc`;
* the Qt signals emitted by the controller are collected into explicit lists
  of `Signal` values returned alongside the new state;
* the attached geo view is `Option TimeExtent`: `none` when no map/scene view
  is attached, otherwise the time extent the view currently reports.  A push
  through `setTimeExtent` is recorded verbatim (the view is authoritative and
  stores what it is given in this model).
-/

namespace TimeSlider

/-- The `Esri::ArcGISRuntime::TimeUnit` enumeration (the members used by the
controller source). -/
inductive TimeUnit where
  | Milliseconds
  | Seconds
  | Minutes
  | Hours
  | Days
  | Weeks
  | Months
  | Years
  | Decades
  | Centuries
  deriving DecidableEq, Repr

/-- A `QDateTime`, reduced to its milliseconds-since-epoch value; `none` is an
invalid datetime. -/
abbrev QDT := Option ℤ

/-- Qt ordering on datetimes: an invalid datetime is earlier than every valid
one, and two invalid datetimes are not ordered strictly. -/
def qdtLt : QDT → QDT → Bool
  | _, none => false
  | none, some _ => true
  | some a, some b => a < b

/-- `a > b` on datetimes, i.e. `qdtLt b a`. -/
def qdtGt (a b : QDT) : Bool := qdtLt b a

/-- `a ≤ b` on datetimes (negation of the strict order). -/
def qdtLe (a b : QDT) : Bool := !(qdtLt b a)

/-- `QDateTime::toMSecsSinceEpoch`; on an invalid datetime the C++ result is
unspecified, read here as 0. -/
def qdtMSecs (d : QDT) : ℤ := d.getD 0

/-- `QDateTime::addMSecs`; an invalid datetime stays invalid. -/
def qdtAddMSecs (d : QDT) (ms : ℤ) : QDT := d.map (· + ms)

/-- An `Esri::ArcGISRuntime::TimeExtent`: a closed interval of datetimes.  The
default-constructed extent has both bounds invalid. -/
structure TimeExtent where
  startTime : QDT
  endTime : QDT
  deriving DecidableEq, Repr

/-- `TimeExtent::isEmpty`: the default-constructed extent, both bounds
invalid. -/
def TimeExtent.isEmpty (e : TimeExtent) : Bool :=
  e.startTime.isNone && e.endTime.isNone

/-- The default-constructed (empty) time extent. -/
def emptyExtent : TimeExtent := ⟨none, none⟩

/-- The payload of a non-empty `Esri::ArcGISRuntime::TimeValue`: a duration
magnitude (a C++ `double`, embedded as `ℚ`) and a time unit. -/
structure TimeValueData where
  duration : ℚ
  unit : TimeUnit
  deriving DecidableEq, Repr

/-- An `Esri::ArcGISRuntime::TimeValue`; `none` is the empty (unset) value. -/
abbrev TimeValue := Option TimeValueData

/-- Truncation toward zero, the implicit C++ conversion from `double` to an
integer type (`int`, `qint64`). -/
def qtrunc (q : ℚ) : ℤ := if 0 ≤ q then ⌊q⌋ else ⌈q⌉

/-- `unionTimeExtent` (TimeSliderController.cpp lines 43-53): if the second
operand is empty return the first unchanged, otherwise take the earlier start
and the later end. -/
def unionTimeExtent (timeExtent otherTimeExtent : TimeExtent) : TimeExtent :=
  if otherTimeExtent.isEmpty then timeExtent
  else
    { startTime :=
        if qdtLt timeExtent.startTime otherTimeExtent.startTime then
          timeExtent.startTime
        else otherTimeExtent.startTime
      endTime :=
        if qdtGt timeExtent.endTime otherTimeExtent.endTime then
          timeExtent.endTime
        else otherTimeExtent.endTime }

/-- `toTimeUnit` (lines 58-77): estimate a time unit from a millisecond
range. -/
def toTimeUnit (milisecondsRange : ℚ) : TimeUnit :=
  if milisecondsRange < 60000 then TimeUnit.Seconds
  else if milisecondsRange < 3600000 then TimeUnit.Minutes
  else if milisecondsRange < 86400000 then TimeUnit.Hours
  else if milisecondsRange < 86400000 * 365 then TimeUnit.Days
  else if milisecondsRange > 86400000 * 365 * 100 then TimeUnit.Centuries
  else TimeUnit.Years

/-- `toMilliseconds` (lines 82-118): convert a time value to absolute
milliseconds with the fixed unit ratios of the source. -/
def toMilliseconds (timeValue : TimeValueData) : ℚ :=
  match timeValue.unit with
  | TimeUnit.Centuries => timeValue.duration * 86400000 * 36500
  | TimeUnit.Decades => timeValue.duration * 86400000 * 3650
  | TimeUnit.Years => timeValue.duration * 86400000 * 365
  | TimeUnit.Months => timeValue.duration * (365 / 12) * 86400000
  | TimeUnit.Weeks => timeValue.duration * 604800000
  | TimeUnit.Days => timeValue.duration * 86400000
  | TimeUnit.Hours => timeValue.duration * 3600000
  | TimeUnit.Minutes => timeValue.duration * 60000
  | TimeUnit.Seconds => timeValue.duration * 1000
  | TimeUnit.Milliseconds => timeValue.duration

/-- `toMilliseconds` lifted to possibly-empty time values; the empty value has
zero duration. -/
def tvToMilliseconds : TimeValue → ℚ
  | none => 0
  | some d => toMilliseconds d

/-- `operator>(TimeValue, TimeValue)` (lines 123-129): same unit compares
durations, otherwise compare converted milliseconds. -/
def tvGt (a b : TimeValue) : Bool :=
  match a, b with
  | some x, some y =>
      if x.unit = y.unit then decide (y.duration < x.duration)
      else decide (tvToMilliseconds b < tvToMilliseconds a)
  | _, _ => decide (tvToMilliseconds b < tvToMilliseconds a)

/-- The Qt change signals the controller can emit. -/
inductive Signal where
  | fullTimeExtentChanged
  | numberOfStepsChanged
  | stepTimesChanged
  | startStepChanged
  | endStepChanged
  | currentTimeExtentChanged
  deriving DecidableEq, Repr

/-- The state owned by `TimeSliderController`. -/
structure ControllerState where
  fullTimeExtent : TimeExtent := emptyExtent
  intervalMS : ℚ := 0
  numberOfSteps : ℤ := 0
  stepTimes : List QDT := []
  startStep : ℤ := 0
  endStep : ℤ := 0
  deriving DecidableEq, Repr

/-- `TimeSliderController::setFullTimeExtent` (lines 352-359): guarded
notification — store and emit only when the value differs. -/
def setFullTimeExtent (s : ControllerState) (fullTimeExtent : TimeExtent) :
    ControllerState × List Signal :=
  if fullTimeExtent = s.fullTimeExtent then (s, [])
  else ({ s with fullTimeExtent := fullTimeExtent }, [Signal.fullTimeExtentChanged])

/-- `TimeSliderController::setNumberOfSteps` (lines 306-313): guarded
notification. -/
def setNumberOfSteps (s : ControllerState) (numberOfSteps : ℤ) :
    ControllerState × List Signal :=
  if numberOfSteps = s.numberOfSteps then (s, [])
  else ({ s with numberOfSteps := numberOfSteps }, [Signal.numberOfStepsChanged])

/-- `TimeSliderController::currentTimeExtent` (lines 364-371): the view's
extent when one is attached, the full extent otherwise; an empty reported
extent falls back to the full extent. -/
def currentTimeExtent (s : ControllerState) (view : Option TimeExtent) : TimeExtent :=
  let geoViewExtent := view.getD s.fullTimeExtent
  if geoViewExtent.isEmpty then s.fullTimeExtent else geoViewExtent

/-- `currentExtentStart` (lines 376-379). -/
def currentExtentStart (s : ControllerState) (view : Option TimeExtent) : QDT :=
  (currentTimeExtent s view).startTime

/-- `currentExtentEnd` (lines 384-387). -/
def currentExtentEnd (s : ControllerState) (view : Option TimeExtent) : QDT :=
  (currentTimeExtent s view).endTime

/-- `TimeSliderController::calculateStepPositions` (lines 490-501): no-op on
an empty full extent; otherwise derive both step indices by dividing the
millisecond offsets by the interval (C++ truncates the double quotient toward
zero when storing into the `int` members) and emit both step signals
unconditionally. -/
def calculateStepPositions (s : ControllerState) (view : Option TimeExtent) :
    ControllerState × List Signal :=
  if s.fullTimeExtent.isEmpty then (s, [])
  else
    let fullStartMs := qdtMSecs s.fullTimeExtent.startTime
    ({ s with
        startStep := qtrunc (((qdtMSecs (currentExtentStart s view) - fullStartMs : ℤ) : ℚ) / s.intervalMS)
        endStep := qtrunc (((qdtMSecs (currentExtentEnd s view) - fullStartMs : ℤ) : ℚ) / s.intervalMS) },
      [Signal.startStepChanged, Signal.endStepChanged])

/-- `TimeSliderController::setStepTimes` (lines 315-323): rebuild the whole
list (`startTime().addMSecs(i * m_intervalMS)`, the product truncated to
`qint64`) and emit `stepTimesChanged` unconditionally. -/
def setStepTimes (s : ControllerState) : ControllerState × List Signal :=
  ({ s with
      stepTimes :=
        (List.range s.numberOfSteps.toNat).map
          (fun (i : ℕ) =>
            qdtAddMSecs s.fullTimeExtent.startTime (qtrunc ((i : ℚ) * s.intervalMS))) },
    [Signal.stepTimesChanged])

/-- `Layer::loadStatus` values. -/
inductive LoadStatus where
  | Loaded
  | FailedToLoad
  | Loading
  | NotLoaded
  | Unknown
  deriving DecidableEq, Repr

/-- The data the controller reads from one operational layer (a non-null
layer of the layer list model). -/
structure LayerData where
  isTimeAware : Bool
  loadStatus : LoadStatus
  isTimeFilteringEnabled : Bool
  isVisible : Bool
  fullTimeExtent : TimeExtent
  timeInterval : TimeValue
  deriving DecidableEq, Repr

/-- Eligibility filter of `initializeTimeProperties` (lines 239-262): the
layer is time aware, finished loading (`Loaded` or `FailedToLoad`), has time
filtering enabled and is visible. -/
def layerEligible (l : LayerData) : Bool :=
  l.isTimeAware
    && (l.loadStatus = LoadStatus.Loaded || l.loadStatus = LoadStatus.FailedToLoad)
    && l.isTimeFilteringEnabled
    && l.isVisible

/-- The `timeAwareLayers` list built by `initializeTimeProperties`. -/
def filterTimeAware (layers : List LayerData) : List LayerData :=
  layers.filter layerEligible

/-- One iteration of the aggregation loop of `initializeTimeProperties`
(lines 268-280): union the layer extent into the stored full extent (emitting
through the guarded setter) and keep the larger time interval. -/
def aggregateStep (acc : ControllerState × List Signal × TimeValue) (layer : LayerData) :
    ControllerState × List Signal × TimeValue :=
  let p := setFullTimeExtent acc.1 (unionTimeExtent layer.fullTimeExtent acc.1.fullTimeExtent)
  let tv :=
    if acc.2.2.isNone then layer.timeInterval
    else if tvGt layer.timeInterval acc.2.2 then layer.timeInterval
    else acc.2.2
  (p.1, acc.2.1 ++ p.2, tv)

/-- The whole aggregation loop of `initializeTimeProperties`, starting from an
empty `timeStepInterval`. -/
def aggregate (s : ControllerState) (layers : List LayerData) :
    ControllerState × List Signal × TimeValue :=
  layers.foldl aggregateStep (s, [], none)

/-- The interval-selection part of the loop alone (the fold of the
`timeStepInterval` updates over the layer intervals). -/
def selStep (acc v : TimeValue) : TimeValue :=
  if acc.isNone then v
  else if tvGt v acc then v
  else acc

/-- The time interval `initializeTimeProperties` resolves from the layers'
native intervals. -/
def selectInterval (intervals : List TimeValue) : TimeValue :=
  intervals.foldl selStep none

/-- Lines 286-290: when no layer reported an interval, estimate one of
magnitude 1.0 from the millisecond range. -/
def resolveTimeStepInterval (tv : TimeValue) (range : ℤ) : TimeValue :=
  if tv.isNone then some ⟨1, toTimeUnit (range : ℚ)⟩ else tv

/-- The millisecond range of an extent (lines 282-284). -/
def extentRange (e : TimeExtent) : ℤ :=
  qdtMSecs e.endTime - qdtMSecs e.startTime

/-- The derivation tail of `initializeTimeProperties` (lines 282-300): compute
the range, resolve the interval, set the step count (`(range / m_intervalMS) + 1`
truncated to `int`), recompute step positions, rebuild step times and emit
`currentTimeExtentChanged` unconditionally. -/
def initDerive (acc : ControllerState × List Signal × TimeValue)
    (view : Option TimeExtent) : ControllerState × List Signal :=
  let s1 := acc.1
  let range := extentRange s1.fullTimeExtent
  let tv := resolveTimeStepInterval acc.2.2 range
  let s2 := { s1 with intervalMS := tvToMilliseconds tv }
  let p3 := setNumberOfSteps s2 (qtrunc ((range : ℚ) / s2.intervalMS + 1))
  let p4 := calculateStepPositions p3.1 view
  let p5 := setStepTimes p4.1
  (p5.1, acc.2.1 ++ p3.2 ++ p4.2 ++ p5.2 ++ [Signal.currentTimeExtentChanged])

/-- `TimeSliderController::initializeTimeProperties` (lines 232-301), taking
the operational layers and the attached view's reported extent: filter the
layers, stop if none are eligible, otherwise aggregate and derive. -/
def initTimeProperties (s : ControllerState) (view : Option TimeExtent)
    (layers : List LayerData) : ControllerState × List Signal :=
  if (filterTimeAware layers).isEmpty then (s, [])
  else initDerive (aggregate s (filterTimeAware layers)) view

/-- The observable outcome of one of the three interval setters: the new
controller state, the view's extent afterwards, the extent pushed through the
view's `setTimeExtent` (`none` when the setter was not called), and the
emitted signals. -/
structure SetterResult where
  state : ControllerState
  view : Option TimeExtent
  pushedExtent : Option TimeExtent
  signals : List Signal
  deriving DecidableEq, Repr

/-- `TimeSliderController::setStartInterval` (lines 410-426). -/
def setStartInterval (s : ControllerState) (view : Option TimeExtent)
    (intervalIndex : ℤ) : SetterResult :=
  if s.fullTimeExtent.isEmpty then ⟨s, view, none, []⟩
  else
    let start := qdtMSecs s.fullTimeExtent.startTime
    let newStart : QDT := some (qtrunc ((start : ℚ) + (intervalIndex : ℚ) * s.intervalMS))
    let newExtent : TimeExtent := ⟨newStart, currentExtentEnd s view⟩
    let view2 := if view.isSome then some newExtent else none
    let p := calculateStepPositions s view2
    ⟨p.1, view2, if view.isSome then some newExtent else none,
      p.2 ++ [Signal.currentTimeExtentChanged]⟩

/-- `TimeSliderController::setEndInterval` (lines 433-449). -/
def setEndInterval (s : ControllerState) (view : Option TimeExtent)
    (intervalIndex : ℤ) : SetterResult :=
  if s.fullTimeExtent.isEmpty then ⟨s, view, none, []⟩
  else
    let start := qdtMSecs s.fullTimeExtent.startTime
    let newEnd : QDT := some (qtrunc ((start : ℚ) + (intervalIndex : ℚ) * s.intervalMS))
    let newExtent : TimeExtent := ⟨currentExtentStart s view, newEnd⟩
    let view2 := if view.isSome then some newExtent else none
    let p := calculateStepPositions s view2
    ⟨p.1, view2, if view.isSome then some newExtent else none,
      p.2 ++ [Signal.currentTimeExtentChanged]⟩

/-- `TimeSliderController::setStartAndEndIntervals` (lines 456-473). -/
def setStartAndEndIntervals (s : ControllerState) (view : Option TimeExtent)
    (startIndex endIndex : ℤ) : SetterResult :=
  if s.fullTimeExtent.isEmpty then ⟨s, view, none, []⟩
  else
    let start := qdtMSecs s.fullTimeExtent.startTime
    let newStart : QDT := some (qtrunc ((start : ℚ) + (startIndex : ℚ) * s.intervalMS))
    let newEnd : QDT := some (qtrunc ((start : ℚ) + (endIndex : ℚ) * s.intervalMS))
    let newExtent : TimeExtent := ⟨newStart, newEnd⟩
    let view2 := if view.isSome then some newExtent else none
    let p := calculateStepPositions s view2
    ⟨p.1, view2, if view.isSome then some newExtent else none,
      p.2 ++ [Signal.currentTimeExtentChanged]⟩

/-- The evolution of the stored full extent across the aggregation loop. -/
def extFold (e : TimeExtent) (ls : List LayerData) : TimeExtent :=
  ls.foldl (fun e l => unionTimeExtent l.fullTimeExtent e) e

/-- `inner` lies inside `outer`: either `inner` is the empty extent, or both
its bounds are bracketed by the bounds of `outer` in the Qt datetime order. -/
def extentContains (outer inner : TimeExtent) : Prop :=
  inner.isEmpty = true ∨
    (qdtLe outer.startTime inner.startTime = true ∧
      qdtLe inner.endTime outer.endTime = true)

/-- The fixed unit-to-milliseconds ratio used by `toMilliseconds`. -/
def unitRatio : TimeUnit → ℚ
  | TimeUnit.Centuries => 86400000 * 36500
  | TimeUnit.Decades => 86400000 * 3650
  | TimeUnit.Years => 86400000 * 365
  | TimeUnit.Months => (365 / 12) * 86400000
  | TimeUnit.Weeks => 604800000
  | TimeUnit.Days => 86400000
  | TimeUnit.Hours => 3600000
  | TimeUnit.Minutes => 60000
  | TimeUnit.Seconds => 1000
  | TimeUnit.Milliseconds => 1

/-- A concrete controller state already consistent with the single layer
`noopLayer`: full extent 0..1000 ms, one-second interval, two steps. -/
def noopState : ControllerState :=
  { fullTimeExtent := ⟨some 0, some 1000⟩
    intervalMS := 1000
    numberOfSteps := 2
    stepTimes := [some 0, some 1000]
    startStep := 0
    endStep := 1 }

/-- A loaded, visible, filtering-enabled time-aware layer with extent
0..1000 ms and a native interval of one second. -/
def noopLayer : LayerData :=
  { isTimeAware := true
    loadStatus := LoadStatus.Loaded
    isTimeFilteringEnabled := true
    isVisible := true
    fullTimeExtent := ⟨some 0, some 1000⟩
    timeInterval := some ⟨1, TimeUnit.Seconds⟩ }

/-- An eligible layer with extent 0..3 ms and a fractional native interval of
1.5 milliseconds. -/
def fracLayer : LayerData :=
  { isTimeAware := true
    loadStatus := LoadStatus.Loaded
    isTimeFilteringEnabled := true
    isVisible := true
    fullTimeExtent := ⟨some 0, some 3⟩
    timeInterval := some ⟨3 / 2, TimeUnit.Milliseconds⟩ }

/-- The extent 0..3 ms as reported by an attached view. -/
def fracView : TimeExtent := ⟨some 0, some 3⟩

/-- The controller state `initTimeProperties` computes from `fracLayer`. -/
def fracState : ControllerState :=
  { fullTimeExtent := ⟨some 0, some 3⟩
    intervalMS := 3 / 2
    numberOfSteps := 3
    stepTimes := [some 0, some 1, some 3]
    startStep := 0
    endStep := 2 }

/-- A controller state with full extent 0..10 ms and a 2 ms interval. -/
def c10State : ControllerState :=
  { fullTimeExtent := ⟨some 0, some 10⟩
    intervalMS := 2
    numberOfSteps := 6
    stepTimes := []
    startStep := 0
    endStep := 5 }

/-! ### Basic lemmas about the datetime order and truncation -/

theorem qdtLt_asymm {a b : QDT} (h : qdtLt a b = true) : qdtLt b a = false := by
  cases a <;> cases b <;> simp_all [qdtLt] <;> omega

theorem qdtLe_refl (a : QDT) : qdtLe a a = true := by
  cases a <;> simp [qdtLe, qdtLt]

theorem qdtLe_of_qdtLt {a b : QDT} (h : qdtLt a b = true) : qdtLe a b = true := by
  simp [qdtLe, qdtLt_asymm h]

theorem qdtLe_trans {a b c : QDT} (h1 : qdtLe a b = true) (h2 : qdtLe b c = true) :
    qdtLe a c = true := by
  cases a <;> cases b <;> cases c <;> simp_all [qdtLe, qdtLt] <;> omega

theorem qdtLt_none_right (a : QDT) : qdtLt a none = false := by
  cases a <;> rfl

theorem qtrunc_of_nonneg {q : ℚ} (h : 0 ≤ q) : qtrunc q = ⌊q⌋ := if_pos h

theorem qtrunc_intCast (n : ℤ) : qtrunc (n : ℚ) = n := by
  unfold qtrunc
  split
  · exact Int.floor_intCast n
  · exact Int.ceil_intCast n

theorem qtrunc_mono {q r : ℚ} (h : q ≤ r) : qtrunc q ≤ qtrunc r := by
  unfold qtrunc
  split
  · rw [if_pos (le_trans (by assumption) h)]
    exact Int.floor_le_floor h
  · split
    · calc ⌈q⌉ ≤ ⌈(0 : ℚ)⌉ := Int.ceil_le_ceil (le_of_not_le (by assumption))
        _ = 0 := by simp
        _ ≤ ⌊r⌋ := Int.floor_nonneg.mpr (by assumption)
    · exact Int.ceil_le_ceil h

theorem qtrunc_neg_of_le_neg_one {q : ℚ} (h : q ≤ -1) : qtrunc q < 0 := by
  unfold qtrunc
  rw [if_neg (by linarith)]
  calc ⌈q⌉ ≤ ⌈(-1 : ℚ)⌉ := Int.ceil_le_ceil h
    _ = -1 := by rw [show ((-1 : ℚ)) = ((-1 : ℤ) : ℚ) by norm_num, Int.ceil_intCast]
    _ < 0 := by norm_num

/-! ### Component lemmas for the guarded setters and the recomputation -/

theorem setFullTimeExtent_fst (s : ControllerState) (e : TimeExtent) :
    (setFullTimeExtent s e).1 = { s with fullTimeExtent := e } := by
  unfold setFullTimeExtent
  split
  · cases s; simp_all
  · rfl

theorem setFullTimeExtent_snd (s : ControllerState) (e : TimeExtent) :
    (setFullTimeExtent s e).2 =
      if e = s.fullTimeExtent then [] else [Signal.fullTimeExtentChanged] := by
  unfold setFullTimeExtent
  split <;> simp_all

theorem setNumberOfSteps_fst (s : ControllerState) (n : ℤ) :
    (setNumberOfSteps s n).1 = { s with numberOfSteps := n } := by
  unfold setNumberOfSteps
  split
  · cases s; simp_all
  · rfl

theorem setNumberOfSteps_snd (s : ControllerState) (n : ℤ) :
    (setNumberOfSteps s n).2 =
      if n = s.numberOfSteps then [] else [Signal.numberOfStepsChanged] := by
  unfold setNumberOfSteps
  split <;> simp_all

theorem calculateStepPositions_fst_fullTimeExtent (s : ControllerState)
    (view : Option TimeExtent) :
    (calculateStepPositions s view).1.fullTimeExtent = s.fullTimeExtent := by
  unfold calculateStepPositions
  split <;> rfl

theorem calculateStepPositions_fst_intervalMS (s : ControllerState)
    (view : Option TimeExtent) :
    (calculateStepPositions s view).1.intervalMS = s.intervalMS := by
  unfold calculateStepPositions
  split <;> rfl

theorem calculateStepPositions_fst_numberOfSteps (s : ControllerState)
    (view : Option TimeExtent) :
    (calculateStepPositions s view).1.numberOfSteps = s.numberOfSteps := by
  unfold calculateStepPositions
  split <;> rfl

theorem calculateStepPositions_fst_stepTimes (s : ControllerState)
    (view : Option TimeExtent) :
    (calculateStepPositions s view).1.stepTimes = s.stepTimes := by
  unfold calculateStepPositions
  split <;> rfl

theorem calculateStepPositions_snd (s : ControllerState) (view : Option TimeExtent) :
    (calculateStepPositions s view).2 =
      if s.fullTimeExtent.isEmpty then []
      else [Signal.startStepChanged, Signal.endStepChanged] := by
  unfold calculateStepPositions
  split <;> simp_all

theorem calculateStepPositions_fst_startStep (s : ControllerState)
    (view : Option TimeExtent) (h : s.fullTimeExtent.isEmpty = false) :
    (calculateStepPositions s view).1.startStep =
      qtrunc (((qdtMSecs (currentExtentStart s view)
        - qdtMSecs s.fullTimeExtent.startTime : ℤ) : ℚ) / s.intervalMS) := by
  unfold calculateStepPositions
  rw [if_neg (by simp [h])]

theorem calculateStepPositions_fst_endStep (s : ControllerState)
    (view : Option TimeExtent) (h : s.fullTimeExtent.isEmpty = false) :
    (calculateStepPositions s view).1.endStep =
      qtrunc (((qdtMSecs (currentExtentEnd s view)
        - qdtMSecs s.fullTimeExtent.startTime : ℤ) : ℚ) / s.intervalMS) := by
  unfold calculateStepPositions
  rw [if_neg (by simp [h])]

theorem setStepTimes_fst_stepTimes (s : ControllerState) :
    (setStepTimes s).1.stepTimes =
      (List.range s.numberOfSteps.toNat).map
        (fun (i : ℕ) =>
          qdtAddMSecs s.fullTimeExtent.startTime (qtrunc ((i : ℚ) * s.intervalMS))) := rfl

theorem setStepTimes_fst_fullTimeExtent (s : ControllerState) :
    (setStepTimes s).1.fullTimeExtent = s.fullTimeExtent := rfl

theorem setStepTimes_fst_intervalMS (s : ControllerState) :
    (setStepTimes s).1.intervalMS = s.intervalMS := rfl

theorem setStepTimes_fst_numberOfSteps (s : ControllerState) :
    (setStepTimes s).1.numberOfSteps = s.numberOfSteps := rfl

theorem setStepTimes_snd (s : ControllerState) :
    (setStepTimes s).2 = [Signal.stepTimesChanged] := rfl

/-! ### The aggregation loop dissected -/

theorem aggregateStep_fst (acc : ControllerState × List Signal × TimeValue)
    (l : LayerData) :
    (aggregateStep acc l).1 =
      { acc.1 with fullTimeExtent := unionTimeExtent l.fullTimeExtent acc.1.fullTimeExtent } := by
  unfold aggregateStep
  simp [setFullTimeExtent_fst]

theorem aggregateStep_tv (acc : ControllerState × List Signal × TimeValue)
    (l : LayerData) :
    (aggregateStep acc l).2.2 = selStep acc.2.2 l.timeInterval := rfl

theorem foldl_aggregateStep_fst :
    ∀ (ls : List LayerData) (acc : ControllerState × List Signal × TimeValue),
      (List.foldl aggregateStep acc ls).1 =
        { acc.1 with fullTimeExtent := extFold acc.1.fullTimeExtent ls }
  | [], acc => by simp [extFold]
  | l :: ls, acc => by
      rw [List.foldl_cons, foldl_aggregateStep_fst ls, aggregateStep_fst]
      simp [extFold]

theorem foldl_aggregateStep_tv :
    ∀ (ls : List LayerData) (acc : ControllerState × List Signal × TimeValue),
      (List.foldl aggregateStep acc ls).2.2 =
        List.foldl selStep acc.2.2 (ls.map LayerData.timeInterval)
  | [], acc => by simp
  | l :: ls, acc => by
      rw [List.foldl_cons, foldl_aggregateStep_tv ls, aggregateStep_tv]
      simp

theorem aggregate_fst (s : ControllerState) (ls : List LayerData) :
    (aggregate s ls).1 = { s with fullTimeExtent := extFold s.fullTimeExtent ls } :=
  foldl_aggregateStep_fst ls (s, [], none)

theorem aggregate_tv (s : ControllerState) (ls : List LayerData) :
    (aggregate s ls).2.2 = selectInterval (ls.map LayerData.timeInterval) :=
  foldl_aggregateStep_tv ls (s, [], none)

/-- When every layer union leaves the stored extent unchanged, the loop
changes no state and emits nothing. -/
theorem foldl_aggregateStep_noop :
    ∀ (ls : List LayerData) (s : ControllerState) (sigs : List Signal) (tv : TimeValue),
      (∀ l ∈ ls, unionTimeExtent l.fullTimeExtent s.fullTimeExtent = s.fullTimeExtent) →
      List.foldl aggregateStep (s, sigs, tv) ls =
        (s, sigs, List.foldl selStep tv (ls.map LayerData.timeInterval))
  | [], s, sigs, tv, _ => by simp
  | l :: ls, s, sigs, tv, h => by
      have hstep : aggregateStep (s, sigs, tv) l = (s, sigs, selStep tv l.timeInterval) := by
        unfold aggregateStep
        rw [h l (by simp)]
        unfold setFullTimeExtent
        simp [selStep]
      rw [List.foldl_cons, hstep, foldl_aggregateStep_noop ls s sigs _
        (fun x hx => h x (by simp [hx]))]
      simp

/-! ### Component lemmas for the derivation tail and the full recomputation -/

theorem initDerive_fst_fullTimeExtent (acc : ControllerState × List Signal × TimeValue)
    (view : Option TimeExtent) :
    (initDerive acc view).1.fullTimeExtent = acc.1.fullTimeExtent := by
  unfold initDerive
  simp [setStepTimes_fst_fullTimeExtent, calculateStepPositions_fst_fullTimeExtent,
    setNumberOfSteps_fst]

theorem initDerive_fst_intervalMS (acc : ControllerState × List Signal × TimeValue)
    (view : Option TimeExtent) :
    (initDerive acc view).1.intervalMS =
      tvToMilliseconds
        (resolveTimeStepInterval acc.2.2 (extentRange acc.1.fullTimeExtent)) := by
  unfold initDerive
  simp [setStepTimes_fst_intervalMS, calculateStepPositions_fst_intervalMS,
    setNumberOfSteps_fst]

theorem initDerive_fst_numberOfSteps (acc : ControllerState × List Signal × TimeValue)
    (view : Option TimeExtent) :
    (initDerive acc view).1.numberOfSteps =
      qtrunc (((extentRange acc.1.fullTimeExtent : ℤ) : ℚ) /
        tvToMilliseconds
          (resolveTimeStepInterval acc.2.2 (extentRange acc.1.fullTimeExtent)) + 1) := by
  unfold initDerive
  simp [setStepTimes_fst_numberOfSteps, calculateStepPositions_fst_numberOfSteps,
    setNumberOfSteps_fst]

theorem initTimeProperties_eq (s : ControllerState) (view : Option TimeExtent)
    (layers : List LayerData) (h : (filterTimeAware layers).isEmpty = false) :
    initTimeProperties s view layers =
      initDerive (aggregate s (filterTimeAware layers)) view := by
  unfold initTimeProperties
  rw [if_neg (by simp [h])]

theorem initTimeProperties_fst_fullTimeExtent (s : ControllerState)
    (view : Option TimeExtent) (layers : List LayerData)
    (h : (filterTimeAware layers).isEmpty = false) :
    (initTimeProperties s view layers).1.fullTimeExtent =
      extFold s.fullTimeExtent (filterTimeAware layers) := by
  rw [initTimeProperties_eq s view layers h, initDerive_fst_fullTimeExtent, aggregate_fst]

theorem initTimeProperties_fst_intervalMS (s : ControllerState)
    (view : Option TimeExtent) (layers : List LayerData)
    (h : (filterTimeAware layers).isEmpty = false) :
    (initTimeProperties s view layers).1.intervalMS =
      tvToMilliseconds
        (resolveTimeStepInterval
          (selectInterval ((filterTimeAware layers).map LayerData.timeInterval))
          (extentRange (extFold s.fullTimeExtent (filterTimeAware layers)))) := by
  rw [initTimeProperties_eq s view layers h, initDerive_fst_intervalMS, aggregate_fst,
    aggregate_tv]

theorem initTimeProperties_fst_numberOfSteps (s : ControllerState)
    (view : Option TimeExtent) (layers : List LayerData)
    (h : (filterTimeAware layers).isEmpty = false) :
    (initTimeProperties s view layers).1.numberOfSteps =
      qtrunc (((extentRange (initTimeProperties s view layers).1.fullTimeExtent : ℤ) : ℚ) /
        (initTimeProperties s view layers).1.intervalMS + 1) := by
  rw [initTimeProperties_fst_intervalMS s view layers h,
    initTimeProperties_fst_fullTimeExtent s view layers h,
    initTimeProperties_eq s view layers h, initDerive_fst_numberOfSteps, aggregate_fst,
    aggregate_tv]

theorem initDerive_fst_stepTimes (acc : ControllerState × List Signal × TimeValue)
    (view : Option TimeExtent) :
    (initDerive acc view).1.stepTimes =
      (List.range (initDerive acc view).1.numberOfSteps.toNat).map
        (fun (i : ℕ) => qdtAddMSecs (initDerive acc view).1.fullTimeExtent.startTime
          (qtrunc ((i : ℚ) * (initDerive acc view).1.intervalMS))) := by
  conv in (initDerive acc view).1.stepTimes => unfold initDerive
  rw [initDerive_fst_numberOfSteps, initDerive_fst_fullTimeExtent, initDerive_fst_intervalMS]
  simp [setStepTimes_fst_stepTimes, setStepTimes_fst_numberOfSteps,
    setStepTimes_fst_fullTimeExtent, setStepTimes_fst_intervalMS,
    calculateStepPositions_fst_numberOfSteps, calculateStepPositions_fst_fullTimeExtent,
    calculateStepPositions_fst_intervalMS, setNumberOfSteps_fst]

theorem initTimeProperties_fst_stepTimes (s : ControllerState)
    (view : Option TimeExtent) (layers : List LayerData)
    (h : (filterTimeAware layers).isEmpty = false) :
    (initTimeProperties s view layers).1.stepTimes =
      (List.range (initTimeProperties s view layers).1.numberOfSteps.toNat).map
        (fun (i : ℕ) => qdtAddMSecs (initTimeProperties s view layers).1.fullTimeExtent.startTime
          (qtrunc ((i : ℚ) * (initTimeProperties s view layers).1.intervalMS))) := by
  rw [initTimeProperties_eq s view layers h]
  exact initDerive_fst_stepTimes (aggregate s (filterTimeAware layers)) view

theorem initDerive_snd (acc : ControllerState × List Signal × TimeValue)
    (view : Option TimeExtent) :
    (initDerive acc view).2 =
      acc.2.1
        ++ (if qtrunc (((extentRange acc.1.fullTimeExtent : ℤ) : ℚ) /
              tvToMilliseconds
                (resolveTimeStepInterval acc.2.2 (extentRange acc.1.fullTimeExtent)) + 1)
              = acc.1.numberOfSteps then [] else [Signal.numberOfStepsChanged])
        ++ (if acc.1.fullTimeExtent.isEmpty then []
            else [Signal.startStepChanged, Signal.endStepChanged])
        ++ [Signal.stepTimesChanged, Signal.currentTimeExtentChanged] := by
  unfold initDerive
  simp only [setStepTimes_snd, calculateStepPositions_snd, setNumberOfSteps_snd,
    setNumberOfSteps_fst]
  simp

/-! ### Containment of time extents (in the Qt datetime order) -/

theorem extentContains_refl (e : TimeExtent) : extentContains e e := by
  by_cases h : e.isEmpty = true
  · exact Or.inl h
  · exact Or.inr ⟨qdtLe_refl _, qdtLe_refl _⟩

theorem isEmpty_false_of_endTime_ne_none {e : TimeExtent} (h : e.endTime ≠ none) :
    e.isEmpty = false := by
  cases he : e.endTime with
  | none => exact absurd he h
  | some v => simp [TimeExtent.isEmpty, he]

/-- One union step of the aggregation loop widens (never shrinks) a non-empty
stored extent, and keeps a valid end bound valid. -/
theorem unionTimeExtent_widens (l cur : TimeExtent) (h : cur.isEmpty = false) :
    qdtLe (unionTimeExtent l cur).startTime cur.startTime = true ∧
    qdtLe cur.endTime (unionTimeExtent l cur).endTime = true ∧
    ((unionTimeExtent l cur).endTime = none → cur.endTime = none) := by
  unfold unionTimeExtent
  rw [if_neg (by simp [h])]
  refine ⟨?_, ?_, ?_⟩
  · dsimp only
    split
    · exact qdtLe_of_qdtLt (by assumption)
    · exact qdtLe_refl _
  · dsimp only
    split
    · exact qdtLe_of_qdtLt (by assumption)
    · exact qdtLe_refl _
  · dsimp only
    split
    · intro he
      rename_i hgt
      rw [qdtGt, he, qdtLt_none_right] at hgt
      exact absurd hgt (by simp)
    · exact fun he => he

theorem extFold_cons (cur : TimeExtent) (l : LayerData) (ls : List LayerData) :
    extFold cur (l :: ls) = extFold (unionTimeExtent l.fullTimeExtent cur) ls := rfl

/-- The whole aggregation loop widens a non-empty stored extent with a valid
end bound, and the result again is non-empty with a valid end bound. -/
theorem extFold_widens :
    ∀ (ls : List LayerData) (cur : TimeExtent), cur.isEmpty = false →
      cur.endTime ≠ none →
      qdtLe (extFold cur ls).startTime cur.startTime = true ∧
      qdtLe cur.endTime (extFold cur ls).endTime = true ∧
      (extFold cur ls).isEmpty = false ∧ (extFold cur ls).endTime ≠ none
  | [], cur, h1, h2 => ⟨qdtLe_refl _, qdtLe_refl _, h1, h2⟩
  | l :: ls, cur, h1, h2 => by
      obtain ⟨hs, he, hn⟩ := unionTimeExtent_widens l.fullTimeExtent cur h1
      have hnn : (unionTimeExtent l.fullTimeExtent cur).endTime ≠ none :=
        fun hx => h2 (hn hx)
      obtain ⟨ih1, ih2, ih3, ih4⟩ :=
        extFold_widens ls (unionTimeExtent l.fullTimeExtent cur)
          (isEmpty_false_of_endTime_ne_none hnn) hnn
      rw [extFold_cons]
      exact ⟨qdtLe_trans ih1 hs, qdtLe_trans he ih2, ih3, ih4⟩

/-- The aggregation loop preserves well-formedness of the stored extent (an
invalid end bound only together with an invalid start bound), provided the
layer extents are themselves well formed. -/
theorem extFold_wf :
    ∀ (ls : List LayerData) (cur : TimeExtent),
      (cur.endTime = none → cur.startTime = none) →
      (∀ l ∈ ls, l.fullTimeExtent.endTime = none → l.fullTimeExtent.startTime = none) →
      ((extFold cur ls).endTime = none → (extFold cur ls).startTime = none)
  | [], cur, hwf, _ => hwf
  | l :: ls, cur, hwf, hl => by
      rw [extFold_cons]
      by_cases hc : cur.isEmpty = true
      · have hu : unionTimeExtent l.fullTimeExtent cur = l.fullTimeExtent := by
          unfold unionTimeExtent
          rw [if_pos hc]
        rw [hu]
        exact extFold_wf ls l.fullTimeExtent (hl l (by simp))
          (fun x hx => hl x (by simp [hx]))
      · have hc2 : cur.isEmpty = false := by
          cases hx : cur.isEmpty
          · rfl
          · exact absurd hx hc
        have hend : cur.endTime ≠ none := by
          intro hx
          have hy := hwf hx
          have : cur.isEmpty = true := by simp [TimeExtent.isEmpty, hx, hy]
          exact hc this
        have hnn : (unionTimeExtent l.fullTimeExtent cur).endTime ≠ none :=
          fun hx => hend ((unionTimeExtent_widens l.fullTimeExtent cur hc2).2.2 hx)
        exact extFold_wf ls (unionTimeExtent l.fullTimeExtent cur)
          (fun hx => absurd hx hnn) (fun x hx => hl x (by simp [hx]))

/-! ### The interval comparison and selection -/

theorem toMilliseconds_eq (d : ℚ) (u : TimeUnit) :
    toMilliseconds ⟨d, u⟩ = d * unitRatio u := by
  cases u <;> simp [toMilliseconds, unitRatio] <;> ring

theorem unitRatio_pos (u : TimeUnit) : 0 < unitRatio u := by
  cases u <;> norm_num [unitRatio]

/-- The source's `operator>` on time values agrees with strict comparison of
the converted millisecond magnitudes. -/
theorem tvGt_iff (a b : TimeValue) :
    tvGt a b = true ↔ tvToMilliseconds b < tvToMilliseconds a := by
  cases a with
  | none => cases b <;> simp [tvGt]
  | some x =>
      cases b with
      | none => simp [tvGt]
      | some y =>
          obtain ⟨xd, xu⟩ := x
          obtain ⟨yd, yu⟩ := y
          show (if xu = yu then _ else _) = true ↔ _
          split
          · rename_i hu
            subst hu
            simp only [decide_eq_true_eq, tvToMilliseconds, toMilliseconds_eq]
            exact (mul_lt_mul_right (unitRatio_pos xu)).symm
          · simp

theorem selStep_cases (acc v : TimeValue) : selStep acc v = acc ∨ selStep acc v = v := by
  unfold selStep
  split
  · exact Or.inr rfl
  · split
    · exact Or.inr rfl
    · exact Or.inl rfl

/-- The interval fold of the aggregation loop computes a maximum: the result
is one of the inputs (or the starting accumulator), its millisecond magnitude
dominates the accumulator and every input, and it is non-empty as soon as the
accumulator or any input is. -/
theorem foldl_selStep_max :
    ∀ (ivs : List TimeValue) (acc : TimeValue),
      (∀ v ∈ ivs, 0 ≤ tvToMilliseconds v) → 0 ≤ tvToMilliseconds acc →
      ((List.foldl selStep acc ivs = acc ∨ List.foldl selStep acc ivs ∈ ivs) ∧
        tvToMilliseconds acc ≤ tvToMilliseconds (List.foldl selStep acc ivs) ∧
        (acc ≠ none → List.foldl selStep acc ivs ≠ none) ∧
        (∀ v ∈ ivs, tvToMilliseconds v ≤ tvToMilliseconds (List.foldl selStep acc ivs)) ∧
        ((∃ v ∈ ivs, v ≠ none) → List.foldl selStep acc ivs ≠ none))
  | [], acc, _, _ => by
      refine ⟨Or.inl rfl, le_refl _, fun h => h, ?_, ?_⟩
      · intro v hv
        exact absurd hv (List.not_mem_nil v)
      · rintro ⟨v, hv, -⟩
        exact absurd hv (List.not_mem_nil v)
  | v :: ivs, acc, hlist, hacc => by
      have hv0 : 0 ≤ tvToMilliseconds v := hlist v (by simp)
      have hge_acc : tvToMilliseconds acc ≤ tvToMilliseconds (selStep acc v) := by
        unfold selStep
        split
        · rename_i hn
          rw [Option.isNone_iff_eq_none] at hn
          rw [hn]
          exact hv0
        · split
          · rename_i hgt
            exact le_of_lt ((tvGt_iff v acc).mp hgt)
          · exact le_refl _
      have hge_v : tvToMilliseconds v ≤ tvToMilliseconds (selStep acc v) := by
        unfold selStep
        split
        · exact le_refl _
        · split
          · exact le_refl _
          · rename_i hgt
            have := (not_congr (tvGt_iff v acc)).mp (by simp [hgt])
            linarith [not_lt.mp this]
      have hnone : selStep acc v = none → acc = none ∧ v = none := by
        unfold selStep
        split
        · rename_i hn
          rw [Option.isNone_iff_eq_none] at hn
          exact fun hx => ⟨hn, hx⟩
        · split
          · rename_i hn hgt
            intro hx
            rw [hx] at hgt
            have h0 : tvToMilliseconds acc < 0 := (tvGt_iff none acc).mp hgt
            linarith
          · rename_i hn _
            intro hx
            rw [Option.isNone_iff_eq_none] at hn
            exact absurd hx hn
      have hacc1 : 0 ≤ tvToMilliseconds (selStep acc v) := le_trans hacc hge_acc
      obtain ⟨ih1, ih2, ih3, ih4, ih5⟩ :=
        foldl_selStep_max ivs (selStep acc v) (fun x hx => hlist x (by simp [hx])) hacc1
      rw [List.foldl_cons]
      refine ⟨?_, le_trans hge_acc ih2, ?_, ?_, ?_⟩
      · rcases ih1 with h | h
        · rcases selStep_cases acc v with h2 | h2
          · exact Or.inl (h.trans h2)
          · rw [h, h2]
            exact Or.inr (List.mem_cons_self v ivs)
        · exact Or.inr (List.mem_cons_of_mem v h)
      · intro hne
        refine ih3 ?_
        intro hx
        exact hne (hnone hx).1
      · intro w hw
        rcases List.mem_cons.mp hw with h | h
        · subst h
          exact le_trans hge_v ih2
        · exact ih4 w h
      · rintro ⟨w, hw, hwne⟩
        rcases List.mem_cons.mp hw with h | h
        · subst h
          refine ih3 ?_
          intro hx
          exact hwne (hnone hx).2
        · exact ih5 ⟨w, h, hwne⟩

/-- The resolved interval of the aggregation loop: a member of the inputs that
dominates all of them, non-empty as soon as one input is. -/
theorem selectInterval_spec (ivs : List TimeValue)
    (h0 : ∀ v ∈ ivs, 0 ≤ tvToMilliseconds v) (hex : ∃ v ∈ ivs, v ≠ none) :
    selectInterval ivs ∈ ivs ∧ selectInterval ivs ≠ none ∧
      ∀ v ∈ ivs, tvToMilliseconds v ≤ tvToMilliseconds (selectInterval ivs) := by
  obtain ⟨h1, _, _, h4, h5⟩ := foldl_selStep_max ivs none h0 (le_refl 0)
  have hne : selectInterval ivs ≠ none := h5 hex
  rcases h1 with h | h
  · exact absurd h hne
  · exact ⟨h, hne, h4⟩

/-! ### Concrete evaluation lemmas and union normal form -/

theorem noopInit_eval :
    initTimeProperties noopState none [noopLayer] =
      (noopState, [Signal.startStepChanged, Signal.endStepChanged,
        Signal.stepTimesChanged, Signal.currentTimeExtentChanged]) := by
  norm_num [initTimeProperties, filterTimeAware, layerEligible, noopLayer, aggregate,
    aggregateStep, initDerive, setFullTimeExtent, setNumberOfSteps, calculateStepPositions,
    setStepTimes, unionTimeExtent, TimeExtent.isEmpty, noopState, qdtLt, qdtGt, qdtMSecs,
    qdtAddMSecs, currentExtentStart, currentExtentEnd, currentTimeExtent, extentRange,
    resolveTimeStepInterval, tvToMilliseconds, toMilliseconds, qtrunc, emptyExtent]
  have h : List.range (Int.toNat 2) = [0, 1] := rfl
  rw [h]
  norm_num

theorem fracInit_eval :
    initTimeProperties {} (some fracView) [fracLayer] =
      (fracState, [Signal.fullTimeExtentChanged, Signal.numberOfStepsChanged,
        Signal.startStepChanged, Signal.endStepChanged, Signal.stepTimesChanged,
        Signal.currentTimeExtentChanged]) := by
  simp [initTimeProperties, filterTimeAware, layerEligible, fracLayer, aggregate,
    aggregateStep, initDerive, setFullTimeExtent, setNumberOfSteps, calculateStepPositions,
    setStepTimes, unionTimeExtent, TimeExtent.isEmpty, fracState, fracView, qdtLt, qdtGt,
    qdtMSecs, qdtAddMSecs, currentExtentStart, currentExtentEnd, currentTimeExtent,
    extentRange, resolveTimeStepInterval, tvToMilliseconds, toMilliseconds, qtrunc,
    emptyExtent]
  have h : List.range 3 = [0, 1, 2] := rfl
  rw [h]
  norm_num

theorem unionTimeExtent_valid (sa ea sb eb : ℤ) :
    unionTimeExtent ⟨some sa, some ea⟩ ⟨some sb, some eb⟩ =
      ⟨some (min sa sb), some (max ea eb)⟩ := by
  unfold unionTimeExtent
  rw [if_neg (by simp [TimeExtent.isEmpty])]
  simp only [qdtGt, qdtLt, TimeExtent.mk.injEq]
  constructor
  · split <;> rename_i h <;> simp only [decide_eq_true_eq] at h <;>
      simp only [Option.some.injEq] <;> omega
  · split <;> rename_i h <;> simp only [decide_eq_true_eq] at h <;>
      simp only [Option.some.injEq] <;> omega

/-! ## The claims -/

/-- C3 (counterexample): unioning an empty extent (first operand) with a
non-empty one does not return the non-empty operand unchanged — the guard of
`unionTimeExtent` only tests its second operand, so the result keeps an
invalid start bound. -/
theorem C3_counterexample :
    unionTimeExtent emptyExtent ⟨some 3, some 5⟩ ≠ (⟨some 3, some 5⟩ : TimeExtent) := by
  decide

/-- C3 (amended): the empty extent is a right identity of `unionTimeExtent`;
over extents with valid bounds the union is `[min of starts, max of ends]`,
commutative and associative; but an empty first operand unioned with a
non-empty second yields an extent with an invalid start bound and the
second's end, not the second operand unchanged. -/
theorem C3_union_properties :
    (∀ e : TimeExtent, unionTimeExtent e emptyExtent = e) ∧
    (∀ sa ea sb eb : ℤ,
      unionTimeExtent ⟨some sa, some ea⟩ ⟨some sb, some eb⟩ =
        ⟨some (min sa sb), some (max ea eb)⟩) ∧
    (∀ sa ea sb eb : ℤ,
      unionTimeExtent ⟨some sa, some ea⟩ ⟨some sb, some eb⟩ =
        unionTimeExtent ⟨some sb, some eb⟩ ⟨some sa, some ea⟩) ∧
    (∀ sa ea sb eb sc ec : ℤ,
      unionTimeExtent (unionTimeExtent ⟨some sa, some ea⟩ ⟨some sb, some eb⟩)
          ⟨some sc, some ec⟩ =
        unionTimeExtent ⟨some sa, some ea⟩
          (unionTimeExtent ⟨some sb, some eb⟩ ⟨some sc, some ec⟩)) ∧
    (∀ a b : ℤ, unionTimeExtent emptyExtent ⟨some a, some b⟩ = ⟨none, some b⟩) := by
  refine ⟨?_, unionTimeExtent_valid, ?_, ?_, ?_⟩
  · intro e
    unfold unionTimeExtent
    rw [if_pos (show emptyExtent.isEmpty = true from rfl)]
  · intro sa ea sb eb
    rw [unionTimeExtent_valid, unionTimeExtent_valid, min_comm, max_comm]
  · intro sa ea sb eb sc ec
    rw [unionTimeExtent_valid, unionTimeExtent_valid, unionTimeExtent_valid,
      unionTimeExtent_valid, min_assoc, max_assoc]
  · intro a b
    unfold unionTimeExtent
    rw [if_neg (by simp [TimeExtent.isEmpty])]
    simp [qdtLt, qdtGt, emptyExtent]

/-- C8: the interval-estimation boundaries of `toTimeUnit` are exactly as
stated, and the estimated interval always has magnitude 1 of the estimated
unit. -/
theorem C8_estimation_boundaries :
    toTimeUnit 59999 = TimeUnit.Seconds ∧
    toTimeUnit 60000 = TimeUnit.Minutes ∧
    toTimeUnit 86399999 = TimeUnit.Hours ∧
    toTimeUnit 86400000 = TimeUnit.Days ∧
    toTimeUnit (365 * 86400000 - 1) = TimeUnit.Days ∧
    toTimeUnit (365 * 86400000) = TimeUnit.Years ∧
    (∀ r : ℚ, 100 * 365 * 86400000 < r → toTimeUnit r = TimeUnit.Centuries) ∧
    (∀ range : ℤ, resolveTimeStepInterval none range = some ⟨1, toTimeUnit (range : ℚ)⟩) := by
  refine ⟨by norm_num [toTimeUnit], by norm_num [toTimeUnit], by norm_num [toTimeUnit],
    by norm_num [toTimeUnit], by norm_num [toTimeUnit], by norm_num [toTimeUnit],
    ?_, fun range => rfl⟩
  intro r hr
  unfold toTimeUnit
  rw [if_neg (by linarith), if_neg (by linarith), if_neg (by linarith),
    if_neg (by linarith), if_pos (by linarith)]

/-- C8 (witness): a range one millisecond above one hundred years estimates
as centuries. -/
theorem C8_witness : toTimeUnit 3153600000001 = TimeUnit.Centuries :=
  C8_estimation_boundaries.2.2.2.2.2.2.1 3153600000001 (by norm_num)

/-- C9: with an empty full time extent, each of the three interval setters
changes no state, pushes nothing to the view and emits no signal. -/
theorem C9_empty_extent_noop (s : ControllerState) (view : Option TimeExtent)
    (k j : ℤ) (h : s.fullTimeExtent.isEmpty = true) :
    setStartInterval s view k = ⟨s, view, none, []⟩ ∧
    setEndInterval s view k = ⟨s, view, none, []⟩ ∧
    setStartAndEndIntervals s view k j = ⟨s, view, none, []⟩ := by
  refine ⟨?_, ?_, ?_⟩
  · unfold setStartInterval
    rw [if_pos h]
  · unfold setEndInterval
    rw [if_pos h]
  · unfold setStartAndEndIntervals
    rw [if_pos h]

/-- C9 (witness): the guard fires on the default-constructed controller
state. -/
theorem C9_witness :
    setStartInterval {} none 3 = ⟨{}, none, none, []⟩ ∧
    setEndInterval {} none 3 = ⟨{}, none, none, []⟩ ∧
    setStartAndEndIntervals {} none 3 7 = ⟨{}, none, none, []⟩ :=
  C9_empty_extent_noop {} none 3 7 rfl

/-- C2: after a recomputation ending with a valid non-empty full extent of
range `b - a` and a positive resolved interval, the step count is
`floor(range / interval) + 1` and the step-time list has exactly that
length. -/
theorem C2_step_count (s : ControllerState) (view : Option TimeExtent)
    (layers : List LayerData) (a b : ℤ)
    (hne : (filterTimeAware layers).isEmpty = false)
    (hext : (initTimeProperties s view layers).1.fullTimeExtent = ⟨some a, some b⟩)
    (hab : a ≤ b)
    (hI : 0 < (initTimeProperties s view layers).1.intervalMS) :
    (initTimeProperties s view layers).1.numberOfSteps =
      ⌊((b - a : ℤ) : ℚ) / (initTimeProperties s view layers).1.intervalMS⌋ + 1 ∧
    ((initTimeProperties s view layers).1.stepTimes.length : ℤ) =
      (initTimeProperties s view layers).1.numberOfSteps := by
  have hn := initTimeProperties_fst_numberOfSteps s view layers hne
  rw [hext] at hn
  have hrange : extentRange ⟨some a, some b⟩ = b - a := rfl
  rw [hrange] at hn
  have hq : (0 : ℚ) ≤ ((b - a : ℤ) : ℚ) / (initTimeProperties s view layers).1.intervalMS :=
    div_nonneg (by exact_mod_cast sub_nonneg.mpr hab) (le_of_lt hI)
  have h1 : qtrunc (((b - a : ℤ) : ℚ) / (initTimeProperties s view layers).1.intervalMS + 1) =
      ⌊((b - a : ℤ) : ℚ) / (initTimeProperties s view layers).1.intervalMS⌋ + 1 := by
    rw [qtrunc_of_nonneg (by linarith), Int.floor_add_one]
  have hsteps : (initTimeProperties s view layers).1.numberOfSteps =
      ⌊((b - a : ℤ) : ℚ) / (initTimeProperties s view layers).1.intervalMS⌋ + 1 := by
    rw [hn, h1]
  refine ⟨hsteps, ?_⟩
  have hst := initTimeProperties_fst_stepTimes s view layers hne
  rw [hst, List.length_map, List.length_range, hsteps]
  have hpos : (0 : ℤ) ≤ ⌊((b - a : ℤ) : ℚ) / (initTimeProperties s view layers).1.intervalMS⌋ + 1 := by
    have := Int.floor_nonneg.mpr hq
    linarith
  exact Int.toNat_of_nonneg hpos

/-- C2 (witness): the concrete one-layer scenario has two steps and two step
times. -/
theorem C2_witness :
    (initTimeProperties noopState none [noopLayer]).1.numberOfSteps =
      ⌊((1000 - 0 : ℤ) : ℚ) / (initTimeProperties noopState none [noopLayer]).1.intervalMS⌋ + 1 ∧
    ((initTimeProperties noopState none [noopLayer]).1.stepTimes.length : ℤ) =
      (initTimeProperties noopState none [noopLayer]).1.numberOfSteps :=
  C2_step_count noopState none [noopLayer] 0 1000 (by decide)
    (by rw [noopInit_eval]; rfl) (by decide)
    (by rw [noopInit_eval]; norm_num [noopState])

/-- C7: the resolved interval of the aggregation loop is the coarsest one —
a member of the inputs whose millisecond magnitude dominates all of them
(under nonnegative magnitudes), non-empty as soon as one input is; on the
three layers 1 Day, 2 Hours, 1 Week it resolves to 1 Week; the fixed
unit-to-milliseconds ratios are those of the spec; and when the loop selects
a native interval, `initializeTimeProperties` adopts its millisecond value as
the resolved interval. -/
theorem C7_coarsest_interval :
    (∀ ivs : List TimeValue, (∀ v ∈ ivs, 0 ≤ tvToMilliseconds v) →
      (∃ v ∈ ivs, v ≠ none) →
      selectInterval ivs ∈ ivs ∧ selectInterval ivs ≠ none ∧
        ∀ v ∈ ivs, tvToMilliseconds v ≤ tvToMilliseconds (selectInterval ivs)) ∧
    selectInterval [some ⟨1, TimeUnit.Days⟩, some ⟨2, TimeUnit.Hours⟩,
        some ⟨1, TimeUnit.Weeks⟩] = some ⟨1, TimeUnit.Weeks⟩ ∧
    toMilliseconds ⟨1, TimeUnit.Years⟩ = 365 * 86400000 ∧
    toMilliseconds ⟨1, TimeUnit.Centuries⟩ = 36500 * 86400000 ∧
    toMilliseconds ⟨1, TimeUnit.Decades⟩ = 3650 * 86400000 ∧
    toMilliseconds ⟨1, TimeUnit.Months⟩ = (365 / 12) * 86400000 ∧
    toMilliseconds ⟨1, TimeUnit.Weeks⟩ = 7 * 86400000 ∧
    toMilliseconds ⟨1, TimeUnit.Days⟩ = 86400000 ∧
    (∀ (s : ControllerState) (view : Option TimeExtent) (layers : List LayerData)
        (d : TimeValueData),
      (filterTimeAware layers).isEmpty = false →
      selectInterval ((filterTimeAware layers).map LayerData.timeInterval) = some d →
      (initTimeProperties s view layers).1.intervalMS = toMilliseconds d) := by
  refine ⟨selectInterval_spec, ?_, by norm_num [toMilliseconds],
    by norm_num [toMilliseconds], by norm_num [toMilliseconds],
    by norm_num [toMilliseconds], by norm_num [toMilliseconds],
    by norm_num [toMilliseconds], ?_⟩
  · have hgt2 : tvGt (some ⟨2, TimeUnit.Hours⟩) (some ⟨1, TimeUnit.Days⟩) = false := by
      simp only [tvGt]
      rw [if_neg (by decide)]
      norm_num [tvToMilliseconds, toMilliseconds]
    have hgt3 : tvGt (some ⟨1, TimeUnit.Weeks⟩) (some ⟨1, TimeUnit.Days⟩) = true := by
      simp only [tvGt]
      rw [if_neg (by decide)]
      norm_num [tvToMilliseconds, toMilliseconds]
    have h2 : selStep (some ⟨1, TimeUnit.Days⟩) (some ⟨2, TimeUnit.Hours⟩) =
        some ⟨1, TimeUnit.Days⟩ := by
      unfold selStep
      rw [if_neg (by simp), if_neg (by simp [hgt2])]
    have h3 : selStep (some ⟨1, TimeUnit.Days⟩) (some ⟨1, TimeUnit.Weeks⟩) =
        some ⟨1, TimeUnit.Weeks⟩ := by
      unfold selStep
      rw [if_neg (by simp), if_pos hgt3]
    show List.foldl selStep none _ = _
    rw [List.foldl_cons, List.foldl_cons, List.foldl_cons, List.foldl_nil]
    rw [show selStep none (some ⟨1, TimeUnit.Days⟩) = some ⟨1, TimeUnit.Days⟩ from rfl,
      h2, h3]
  · intro s view layers d hne hsel
    rw [initTimeProperties_fst_intervalMS s view layers hne, hsel,
      resolveTimeStepInterval]
    rfl

/-- C7 (witness): on the singleton list holding 1 Day the selection returns
that interval, which dominates the list. -/
theorem C7_witness :
    selectInterval [some ⟨1, TimeUnit.Days⟩] ∈ [(some ⟨1, TimeUnit.Days⟩ : TimeValue)] ∧
    selectInterval [some ⟨1, TimeUnit.Days⟩] ≠ none ∧
    ∀ v ∈ [(some ⟨1, TimeUnit.Days⟩ : TimeValue)],
      tvToMilliseconds v ≤ tvToMilliseconds (selectInterval [some ⟨1, TimeUnit.Days⟩]) :=
  C7_coarsest_interval.1 [some ⟨1, TimeUnit.Days⟩]
    (by
      intro v hv
      rw [List.mem_singleton] at hv
      subst hv
      norm_num [tvToMilliseconds, toMilliseconds])
    ⟨some ⟨1, TimeUnit.Days⟩, by simp, by simp⟩

/-- C10 (counterexample): a view extent starting 1 ms before the full extent
(with a 2 ms interval) yields start step 0, not a negative step — the C++
double-to-int conversion truncates toward zero, so small negative offsets
collapse to 0. -/
theorem C10_counterexample :
    qdtLt (some (-1)) c10State.fullTimeExtent.startTime = true ∧
    (calculateStepPositions c10State (some ⟨some (-1), some 10⟩)).1.startStep = 0 ∧
    ¬ (calculateStepPositions c10State (some ⟨some (-1), some 10⟩)).1.startStep < 0 := by
  have hval : (calculateStepPositions c10State (some ⟨some (-1), some 10⟩)).1.startStep = 0 := by
    norm_num [calculateStepPositions, c10State, currentExtentStart, currentExtentEnd,
      currentTimeExtent, TimeExtent.isEmpty, qdtMSecs, qtrunc]
  refine ⟨by decide, hval, ?_⟩
  rw [hval]
  omega

/-- C10 (amended): `calculateStepPositions` stores the toward-zero truncated
quotients without any clamping; the start step is negative exactly when the
view's start precedes the full start by at least one interval, and nothing
restrains either index to `[0, numberOfSteps - 1]`. -/
theorem C10_steps_unclamped (s : ControllerState) (v : TimeExtent) (a b c d : ℤ)
    (hf : s.fullTimeExtent = ⟨some a, some b⟩) (hv : v = ⟨some c, some d⟩)
    (hI : 0 < s.intervalMS) :
    (calculateStepPositions s (some v)).1.startStep =
      qtrunc (((c - a : ℤ) : ℚ) / s.intervalMS) ∧
    (calculateStepPositions s (some v)).1.endStep =
      qtrunc (((d - a : ℤ) : ℚ) / s.intervalMS) ∧
    (((c : ℚ) - a ≤ -s.intervalMS) →
      (calculateStepPositions s (some v)).1.startStep < 0) := by
  subst hv
  have hne : s.fullTimeExtent.isEmpty = false := by
    rw [hf]
    rfl
  have hcur : currentTimeExtent s (some ⟨some c, some d⟩) = ⟨some c, some d⟩ := by
    unfold currentTimeExtent
    simp [TimeExtent.isEmpty]
  have hstart : (calculateStepPositions s (some ⟨some c, some d⟩)).1.startStep =
      qtrunc (((c - a : ℤ) : ℚ) / s.intervalMS) := by
    rw [calculateStepPositions_fst_startStep s _ hne, currentExtentStart, hcur, hf]
    rfl
  refine ⟨hstart, ?_, ?_⟩
  · rw [calculateStepPositions_fst_endStep s _ hne, currentExtentEnd, hcur, hf]
    rfl
  · intro hle
    rw [hstart]
    apply qtrunc_neg_of_le_neg_one
    rw [div_le_iff hI]
    push_cast
    linarith

/-- C10 (witness): a view start two milliseconds (one interval) before the
full start produces the negative start step -1. -/
theorem C10_witness :
    (calculateStepPositions c10State (some ⟨some (-2), some 10⟩)).1.startStep =
      qtrunc (((-2 - 0 : ℤ) : ℚ) / c10State.intervalMS) ∧
    (calculateStepPositions c10State (some ⟨some (-2), some 10⟩)).1.endStep =
      qtrunc (((10 - 0 : ℤ) : ℚ) / c10State.intervalMS) ∧
    (((-2 : ℚ) - 0 ≤ -c10State.intervalMS) →
      (calculateStepPositions c10State (some ⟨some (-2), some 10⟩)).1.startStep < 0) :=
  C10_steps_unclamped c10State ⟨some (-2), some 10⟩ 0 10 (-2) 10 rfl rfl
    (by norm_num [c10State])

/-- C5 (counterexample): with the fractional 1.5 ms interval of `fracLayer`,
the recomputed step time at index 1 is the truncated 1 ms, not
`start + 1 * interval = 1.5` as the claim states. -/
theorem C5_counterexample :
    (initTimeProperties {} (some fracView) [fracLayer]).1.intervalMS = 3 / 2 ∧
    (initTimeProperties {} (some fracView) [fracLayer]).1.fullTimeExtent.startTime = some 0 ∧
    (initTimeProperties {} (some fracView) [fracLayer]).1.stepTimes =
      [some 0, some 1, some 3] ∧
    ((1 : ℚ) ≠ 0 + 1 * (3 / 2)) := by
  rw [fracInit_eval]
  refine ⟨rfl, rfl, rfl, by norm_num⟩

/-- C5 (amended): after a recomputation with a valid non-empty full extent
and positive interval `I`, `stepTimes[i]` is the start plus the
toward-zero-truncated `i * I` (equal to `start + i * I` exactly when `i * I`
is a whole number of milliseconds); the sequence is non-decreasing and its
first element is the full extent's start. -/
theorem C5_step_times (s : ControllerState) (view : Option TimeExtent)
    (layers : List LayerData) (a b : ℤ)
    (hne : (filterTimeAware layers).isEmpty = false)
    (hext : (initTimeProperties s view layers).1.fullTimeExtent = ⟨some a, some b⟩)
    (hI : 0 < (initTimeProperties s view layers).1.intervalMS) :
    (∀ (i : ℕ) (hi : i < (initTimeProperties s view layers).1.stepTimes.length),
      (initTimeProperties s view layers).1.stepTimes.get ⟨i, hi⟩ =
        some (a + qtrunc ((i : ℚ) * (initTimeProperties s view layers).1.intervalMS))) ∧
    (∀ (i j : ℕ) (hi : i < (initTimeProperties s view layers).1.stepTimes.length)
        (hj : j < (initTimeProperties s view layers).1.stepTimes.length), i ≤ j →
      qdtLe ((initTimeProperties s view layers).1.stepTimes.get ⟨i, hi⟩)
        ((initTimeProperties s view layers).1.stepTimes.get ⟨j, hj⟩) = true) ∧
    (∀ h0 : 0 < (initTimeProperties s view layers).1.stepTimes.length,
      (initTimeProperties s view layers).1.stepTimes.get ⟨0, h0⟩ =
        (initTimeProperties s view layers).1.fullTimeExtent.startTime) := by
  have hst := initTimeProperties_fst_stepTimes s view layers hne
  have hget : ∀ (i : ℕ) (hi : i < (initTimeProperties s view layers).1.stepTimes.length),
      (initTimeProperties s view layers).1.stepTimes.get ⟨i, hi⟩ =
        some (a + qtrunc ((i : ℚ) * (initTimeProperties s view layers).1.intervalMS)) := by
    intro i hi
    have hi2 : i < (initTimeProperties s view layers).1.stepTimes.length := hi
    rw [hst] at hi2
    simp only [List.length_map, List.length_range] at hi2
    have : (initTimeProperties s view layers).1.stepTimes.get ⟨i, hi⟩ =
        qdtAddMSecs (initTimeProperties s view layers).1.fullTimeExtent.startTime
          (qtrunc ((i : ℚ) * (initTimeProperties s view layers).1.intervalMS)) := by
      simp only [List.get_eq_getElem]
      conv in (initTimeProperties s view layers).1.stepTimes => rw [hst]
      rw [List.getElem_map, List.getElem_range]
    rw [this, hext]
    rfl
  refine ⟨hget, ?_, ?_⟩
  · intro i j hi hj hij
    rw [hget i hi, hget j hj]
    have hmul : (i : ℚ) * (initTimeProperties s view layers).1.intervalMS ≤
        (j : ℚ) * (initTimeProperties s view layers).1.intervalMS := by
      apply mul_le_mul_of_nonneg_right _ (le_of_lt hI)
      exact_mod_cast hij
    have := qtrunc_mono hmul
    simp only [qdtLe, qdtLt]
    simp only [Bool.not_eq_eq_eq_not, Bool.not_true, decide_eq_false_iff_not, not_lt]
    omega
  · intro h0
    rw [hget 0 h0, hext]
    norm_num [qtrunc]

/-- C5 (witness): in the concrete one-second scenario every step time is
exactly `start + i * interval`, the sequence is non-decreasing and starts at
the full extent's start. -/
theorem C5_witness :
    (∀ (i : ℕ) (hi : i < (initTimeProperties noopState none [noopLayer]).1.stepTimes.length),
      (initTimeProperties noopState none [noopLayer]).1.stepTimes.get ⟨i, hi⟩ =
        some (0 + qtrunc ((i : ℚ) * (initTimeProperties noopState none [noopLayer]).1.intervalMS))) ∧
    (∀ (i j : ℕ) (hi : i < (initTimeProperties noopState none [noopLayer]).1.stepTimes.length)
        (hj : j < (initTimeProperties noopState none [noopLayer]).1.stepTimes.length), i ≤ j →
      qdtLe ((initTimeProperties noopState none [noopLayer]).1.stepTimes.get ⟨i, hi⟩)
        ((initTimeProperties noopState none [noopLayer]).1.stepTimes.get ⟨j, hj⟩) = true) ∧
    (∀ h0 : 0 < (initTimeProperties noopState none [noopLayer]).1.stepTimes.length,
      (initTimeProperties noopState none [noopLayer]).1.stepTimes.get ⟨0, h0⟩ =
        (initTimeProperties noopState none [noopLayer]).1.fullTimeExtent.startTime) :=
  C5_step_times noopState none [noopLayer] 0 1000 (by decide)
    (by rw [noopInit_eval]; rfl)
    (by rw [noopInit_eval]; norm_num [noopState])

/-- C6 (counterexample): starting from the recomputed fractional-interval
state, requesting start index 1 stores the timestamp truncated to 1 ms, and
`calculateStepPositions` maps it back to step 0, not 1 — the round trip
fails for an in-range index. -/
theorem C6_counterexample :
    (initTimeProperties {} (some fracView) [fracLayer]).1 = fracState ∧
    (0 : ℤ) ≤ 1 ∧ (1 : ℤ) < fracState.numberOfSteps ∧
    (setStartInterval fracState (some fracView) 1).state.startStep = 0 ∧
    (0 : ℤ) ≠ 1 := by
  refine ⟨by rw [fracInit_eval], by norm_num, by norm_num [fracState], ?_, by norm_num⟩
  norm_num [setStartInterval, fracState, fracView, TimeExtent.isEmpty, qdtMSecs,
    currentExtentStart, currentExtentEnd, currentTimeExtent, calculateStepPositions,
    qtrunc]

/-- C6 (amended): the index-to-time-to-index round trip through
`setStartInterval` and `calculateStepPositions` returns the requested index
`k` whenever `k * interval` is a whole number of milliseconds (in particular
for every whole-millisecond interval); the truncation to whole milliseconds
breaks it otherwise. -/
theorem C6_round_trip (s : ControllerState) (v : TimeExtent) (a b k m : ℤ)
    (hf : s.fullTimeExtent = ⟨some a, some b⟩)
    (hk0 : 0 ≤ k) (hk1 : k < s.numberOfSteps)
    (hI : 0 < s.intervalMS)
    (hm : (k : ℚ) * s.intervalMS = (m : ℤ)) :
    (setStartInterval s (some v) k).state.startStep = k := by
  have hne : s.fullTimeExtent.isEmpty = false := by
    rw [hf]
    rfl
  unfold setStartInterval
  rw [if_neg (by simp [hne])]
  simp only [Option.isSome_some, if_pos]
  have hstart : qdtMSecs s.fullTimeExtent.startTime = a := by
    rw [hf]
    rfl
  have hcast : ((qdtMSecs s.fullTimeExtent.startTime : ℤ) : ℚ) + (k : ℚ) * s.intervalMS =
      ((a + m : ℤ) : ℚ) := by
    rw [hstart, hm]
    push_cast
    ring
  rw [hcast, qtrunc_intCast]
  set ne2 : TimeExtent := ⟨some (a + m), currentExtentEnd s (some v)⟩ with hne2
  have hcur : currentTimeExtent s (some ne2) = ne2 := by
    unfold currentTimeExtent
    simp [TimeExtent.isEmpty, hne2]
  rw [calculateStepPositions_fst_startStep s _ hne, currentExtentStart, hcur, hne2, hstart]
  have : qdtMSecs (some (a + m)) = a + m := rfl
  rw [this]
  have hmq : ((a + m - a : ℤ) : ℚ) = (k : ℚ) * s.intervalMS := by
    rw [hm]
    push_cast
    ring
  rw [hmq, mul_div_assoc, div_self (ne_of_gt hI), mul_one, qtrunc_intCast]

/-- C6 (witness): with the whole-millisecond one-second interval, requesting
start index 1 round-trips back to start step 1. -/
theorem C6_witness :
    (setStartInterval noopState (some ⟨some 0, some 1000⟩) 1).state.startStep = 1 :=
  C6_round_trip noopState ⟨some 0, some 1000⟩ 0 1000 1 1000 rfl (by norm_num)
    (by norm_num [noopState]) (by norm_num [noopState]) (by norm_num [noopState])

/-- C4: one recomputation only ever widens the stored full extent — the
result contains the previous full extent (for any well-formed previous
extent, i.e. one whose end bound is only invalid when the whole extent is
empty), and well-formedness is preserved when the layer extents are well
formed, so the containment holds along every sequence of recomputations. -/
theorem C4_full_extent_monotone (s : ControllerState) (view : Option TimeExtent)
    (layers : List LayerData)
    (hwf : s.fullTimeExtent.endTime = none → s.fullTimeExtent.startTime = none) :
    extentContains (initTimeProperties s view layers).1.fullTimeExtent s.fullTimeExtent ∧
    ((∀ l ∈ filterTimeAware layers,
        l.fullTimeExtent.endTime = none → l.fullTimeExtent.startTime = none) →
      ((initTimeProperties s view layers).1.fullTimeExtent.endTime = none →
        (initTimeProperties s view layers).1.fullTimeExtent.startTime = none)) := by
  cases hfe : (filterTimeAware layers).isEmpty with
  | true =>
      have heq : initTimeProperties s view layers = (s, []) := by
        unfold initTimeProperties
        rw [if_pos hfe]
      rw [heq]
      exact ⟨extentContains_refl _, fun _ => hwf⟩
  | false =>
      have hfull := initTimeProperties_fst_fullTimeExtent s view layers hfe
      rw [hfull]
      constructor
      · by_cases hemp : s.fullTimeExtent.isEmpty = true
        · exact Or.inl hemp
        · have hemp2 : s.fullTimeExtent.isEmpty = false := by
            cases hx : s.fullTimeExtent.isEmpty
            · rfl
            · exact absurd hx hemp
          have hend : s.fullTimeExtent.endTime ≠ none := by
            intro hx
            have hy := hwf hx
            exact hemp (by simp [TimeExtent.isEmpty, hx, hy])
          obtain ⟨h1, h2, _, _⟩ :=
            extFold_widens (filterTimeAware layers) s.fullTimeExtent hemp2 hend
          exact Or.inr ⟨h1, h2⟩
      · intro hl
        exact extFold_wf (filterTimeAware layers) s.fullTimeExtent hwf hl

/-- C4 (witness): the concrete scenario's recomputation yields an extent
containing the previous one and preserves well-formedness. -/
theorem C4_witness :
    extentContains (initTimeProperties noopState none [noopLayer]).1.fullTimeExtent
      noopState.fullTimeExtent ∧
    ((∀ l ∈ filterTimeAware [noopLayer],
        l.fullTimeExtent.endTime = none → l.fullTimeExtent.startTime = none) →
      ((initTimeProperties noopState none [noopLayer]).1.fullTimeExtent.endTime = none →
        (initTimeProperties noopState none [noopLayer]).1.fullTimeExtent.startTime = none)) :=
  C4_full_extent_monotone noopState none [noopLayer] (by decide)

/-- C1 (counterexample): a recomputation that changes no derived value still
emits signals — the claim that a no-op recomputation emits none of the
notifications is false on the code. -/
theorem C1_counterexample :
    (initTimeProperties noopState none [noopLayer]).1 = noopState ∧
    (initTimeProperties noopState none [noopLayer]).2 ≠ [] := by
  rw [noopInit_eval]
  exact ⟨rfl, by decide⟩

/-- C1 (amended): only the full-extent and step-count notifications are
change-guarded (each fires exactly when its value differs); a recomputation
with eligible layers that changes nothing still emits, in order, the start
step, end step, step times and current extent notifications. -/
theorem C1_guarded_notifications (s : ControllerState) (view : Option TimeExtent)
    (layers : List LayerData)
    (hne : (filterTimeAware layers).isEmpty = false)
    (hU : ∀ l ∈ filterTimeAware layers,
      unionTimeExtent l.fullTimeExtent s.fullTimeExtent = s.fullTimeExtent)
    (hN : (initTimeProperties s view layers).1.numberOfSteps = s.numberOfSteps)
    (hE : s.fullTimeExtent.isEmpty = false) :
    (initTimeProperties s view layers).2 =
      [Signal.startStepChanged, Signal.endStepChanged, Signal.stepTimesChanged,
        Signal.currentTimeExtentChanged] ∧
    Signal.fullTimeExtentChanged ∉ (initTimeProperties s view layers).2 ∧
    Signal.numberOfStepsChanged ∉ (initTimeProperties s view layers).2 ∧
    (∀ (t : ControllerState) (e : TimeExtent),
      (setFullTimeExtent t e).2 = [] ↔ e = t.fullTimeExtent) ∧
    (∀ (t : ControllerState) (n : ℤ),
      (setNumberOfSteps t n).2 = [] ↔ n = t.numberOfSteps) := by
  have hagg : aggregate s (filterTimeAware layers) =
      (s, [], selectInterval ((filterTimeAware layers).map LayerData.timeInterval)) := by
    unfold aggregate selectInterval
    exact foldl_aggregateStep_noop _ s [] none hU
  have heq := initTimeProperties_eq s view layers hne
  rw [hagg] at heq
  have hcond : qtrunc (((extentRange s.fullTimeExtent : ℤ) : ℚ) /
      tvToMilliseconds
        (resolveTimeStepInterval
          (selectInterval ((filterTimeAware layers).map LayerData.timeInterval))
          (extentRange s.fullTimeExtent)) + 1) = s.numberOfSteps := by
    have h2 := initDerive_fst_numberOfSteps
      (s, [], selectInterval ((filterTimeAware layers).map LayerData.timeInterval)) view
    rw [← heq, hN] at h2
    exact h2.symm
  have hsnd := initDerive_snd
    (s, [], selectInterval ((filterTimeAware layers).map LayerData.timeInterval)) view
  rw [if_pos hcond, if_neg (by simp [hE])] at hsnd
  have hlist : (initTimeProperties s view layers).2 =
      [Signal.startStepChanged, Signal.endStepChanged, Signal.stepTimesChanged,
        Signal.currentTimeExtentChanged] := by
    rw [heq, hsnd]
    rfl
  refine ⟨hlist, ?_, ?_, ?_, ?_⟩
  · rw [hlist]
    decide
  · rw [hlist]
    decide
  · intro t e
    rw [setFullTimeExtent_snd]
    split
    · simp_all
    · simp_all
  · intro t n
    rw [setNumberOfSteps_snd]
    split
    · simp_all
    · simp_all

/-- C1 (witness): the change-free concrete recomputation emits exactly the
four unguarded notifications. -/
theorem C1_witness :
    (initTimeProperties noopState none [noopLayer]).2 =
      [Signal.startStepChanged, Signal.endStepChanged, Signal.stepTimesChanged,
        Signal.currentTimeExtentChanged] ∧
    Signal.fullTimeExtentChanged ∉ (initTimeProperties noopState none [noopLayer]).2 ∧
    Signal.numberOfStepsChanged ∉ (initTimeProperties noopState none [noopLayer]).2 ∧
    (∀ (t : ControllerState) (e : TimeExtent),
      (setFullTimeExtent t e).2 = [] ↔ e = t.fullTimeExtent) ∧
    (∀ (t : ControllerState) (n : ℤ),
      (setNumberOfSteps t n).2 = [] ↔ n = t.numberOfSteps) :=
  C1_guarded_notifications noopState none [noopLayer] (by decide) (by decide)
    (by rw [noopInit_eval]) (by decide)

end TimeSlider
